import Mathlib

/-!
Verification development for the `cursor_bundle` installation orchestration
core.  The definitions below are shallow embeddings of the Python source:

* `validate_command` / `execute_safe_command` embed
  `EnterpriseFlaskApp.validate_command` and
  `EnterpriseFlaskApp.execute_safe_command` from
  `06-launcherplus-improved.py` (lines 942-1005), together with the
  configuration lists from `EnterpriseConfig.__post_init__` (lines 185-196).
* `download_file` / `verify_checksum` embed `DownloadManager` from
  `07-tkinter-improved.py` (lines 881-952).
* `installLoop` / `install` embed `InstallationEngine.install` from
  `07-tkinter-improved.py` (lines 965-1026), with the externally-set
  abort/pause flags modelled as schedules over an abstract poll clock.

Strings from the Python side are modelled as `List Char`; machine I/O and
exceptions are modelled explicitly (`Except`, `Option`).
-/

/-! ### Python string primitives (ASCII fragment used by the source) -/

/-- The whitespace characters stripped by Python `str.strip()` (ASCII part). -/
def isPySpace (c : Char) : Bool :=
  c == ' ' || c == '\t' || c == '\n' || c == '\r' || c == '\x0b' || c == '\x0c'

/-- ASCII lower-casing of one character, as Python `str.lower()` does on ASCII. -/
def lowerAscii (c : Char) : Char :=
  if 'A' ≤ c && c ≤ 'Z' then Char.ofNat (c.toNat + 32) else c

/-- Python `s.strip()`: drop leading and trailing whitespace. -/
def pyStrip (s : List Char) : List Char :=
  ((s.dropWhile isPySpace).reverse.dropWhile isPySpace).reverse

/-- Python `s.lower()` (ASCII fragment). -/
def pyLower (s : List Char) : List Char := s.map lowerAscii

/-- `command.strip().lower()`, the normalisation used by the validator and
the dispatcher. -/
def pyNormalize (s : List Char) : List Char := pyLower (pyStrip s)

/-- Python `s.startswith(p)`. -/
def listStartsWith : List Char → List Char → Bool
  | [], _ => true
  | _ :: _, [] => false
  | a :: as, b :: bs => a == b && listStartsWith as bs

/-- Python `needle in hay` (substring containment). -/
def containsSub (needle : List Char) : List Char → Bool
  | [] => listStartsWith needle []
  | c :: cs => listStartsWith needle (c :: cs) || containsSub needle cs

/-! ### Configuration (`EnterpriseConfig`, 06-launcherplus-improved.py) -/

/-- `EnterpriseConfig.MAX_COMMAND_LENGTH`. -/
def MAX_COMMAND_LENGTH : Nat := 1000

/-- `EnterpriseConfig.ALLOWED_COMMANDS` (lines 187-190). -/
def ALLOWED_COMMANDS : List (List Char) :=
  ["status", "version", "check", "info", "help", "list", "health",
   "metrics", "logs", "users", "sessions", "audit"].map String.toList

/-- `EnterpriseConfig.DANGEROUS_PATTERNS` (lines 193-196).  The brace and
backtick characters are written with hex escapes. -/
def DANGEROUS_PATTERNS : List (List Char) :=
  ["&", "|", ";", "\x60", "$", ">", "<", "(", ")", "\x7b", "\x7d",
   "rm", "del", "format", "sudo", "su", "passwd"].map String.toList

/-! ### Policy validator (`EnterpriseFlaskApp.validate_command`) -/

/-- The rejection/acceptance reason.  The source returns free-text reason
strings; only their identity matters to the claims, so they are modelled as
an enumeration (one constructor per distinct `return` site). -/
inductive Reason
  | empty
  | tooLong
  | notAllowed
  | dangerous
  | valid
deriving DecidableEq, Repr

structure ValidationResult where
  accepted : Bool
  reason : Reason
deriving DecidableEq, Repr

/-- Embedding of `validate_command` (06-launcherplus-improved.py,
lines 942-963).  The checks appear in source order: empty, over-long,
allow-list prefix on the normalised text, dangerous substring on the
original text. -/
def validate_command (command : List Char) : ValidationResult :=
  if command.isEmpty || (pyStrip command).isEmpty then
    ⟨false, .empty⟩
  else if command.length > MAX_COMMAND_LENGTH then
    ⟨false, .tooLong⟩
  else if !(ALLOWED_COMMANDS.any fun cmd => listStartsWith cmd (pyNormalize command)) then
    ⟨false, .notAllowed⟩
  else if DANGEROUS_PATTERNS.any fun pat => containsSub pat command then
    ⟨false, .dangerous⟩
  else
    ⟨true, .valid⟩

/-! ### Command dispatcher (`EnterpriseFlaskApp.execute_safe_command`) -/

/-- The three audit actions emitted by `execute_safe_command` via
`AdvancedLogger.audit`. -/
inductive AuditAction
  | command_rejected
  | command_executed
  | command_error
deriving DecidableEq, Repr

/-- The dispatcher's textual result, abstracted to the shape of each
`return` site (the claims only concern the audit events). -/
inductive ExecOutput
  | errorRejected
  | handlerOutput (out : List Char)
  | notImplemented
  | errorFailed
deriving DecidableEq, Repr

/-- The ten operation names that have a concrete handler branch in
`execute_safe_command` (note: `list` and `logs` pass validation but have no
branch and fall to the default message). -/
def handlerNames : List (List Char) :=
  ["status", "version", "check", "info", "help", "health",
   "metrics", "users", "sessions", "audit"].map String.toList

/-- Embedding of `execute_safe_command` (06-launcherplus-improved.py,
lines 965-1005).  `hres name` is the behaviour of the `_cmd_<name>` handler
on this call: `.ok out` for a normal return, `.error e` for a raised
exception.  The returned list is the sequence of audit events emitted
during the call, in order:

* rejection emits `command_rejected` and returns;
* on acceptance `command_executed` is emitted *before* the handler runs;
* a handler exception is caught and additionally emits `command_error`. -/
def execute_safe_command (hres : List Char → Except (List Char) (List Char))
    (command : List Char) : ExecOutput × List AuditAction :=
  let v := validate_command command
  if !v.accepted then
    (.errorRejected, [.command_rejected])
  else
    let cl := pyNormalize command
    if handlerNames.contains cl then
      match hres cl with
      | .ok out => (.handlerOutput out, [.command_executed])
      | .error _ => (.errorFailed, [.command_executed, .command_error])
    else
      (.notImplemented, [.command_executed])

/-! ### Installation engine (`InstallationEngine`, 07-tkinter-improved.py)

`install` runs on a worker thread; `abort()` sets `abort_flag`,
`pause()` sets and `resume()` clears `pause_flag` from other threads.
The worker only observes the flags at discrete read points: the abort
check before each stage, and each poll of the pause wait loop
(`while self.pause_flag.is_set(): time.sleep(0.1)`).  We model the
interleaving by a poll clock: every flag read consumes one tick, and the
environment supplies the flag value at every tick (`abortF`, `pauseF`).
`abort()` having been called by tick `t` corresponds to
`abortF t = true`; since `abort_flag` is only ever set, schedules arising
from real executions are monotone.  A pause held forever makes the wait
loop spin forever, modelled by fuel exhaustion (`none`). -/

/-- `InstallationState.status` values reachable in `install`. -/
inductive IStatus
  | idle
  | installing
  | aborted
  | failed
  | completed
deriving DecidableEq, Repr

/-- The messages appended to `InstallationState.errors` by `install`:
`"Step '<name>' failed"` for an explicit `False` return and
`"Step '<name>' error: <e>"` for a caught exception (the quoting
punctuation of the f-strings is elided). -/
inductive ErrMsg
  | stepFailed (step : String)
  | stepError (step : String) (msg : String)
deriving DecidableEq, Repr

/-- The fields of `InstallationState` (07-tkinter-improved.py, lines
176-182) read or written by `install`; progress is the exact rational
value of `(i + 1) / total_steps * 100`.  (`start_time` / `end_time` and
the warnings list are not modelled: no claim mentions them.) -/
structure EngState where
  status : IStatus
  progress : ℚ
  current_step : Option String
  steps_completed : List String
  errors : List ErrMsg
deriving DecidableEq, Repr

/-- Observable events of one run, in order: a stage starting, a stage
function returning successfully, and the progress callback being invoked
(with the state it receives). -/
inductive Ev
  | stageStarted (name : String)
  | stageCompleted (name : String)
  | callback (st : EngState)
deriving DecidableEq, Repr

/-- The environment of one `install` run: the flag schedules over the
poll clock, the outcome of each stage function (`.ok b` for a normal
return of `b`, `.error e` for a raised exception) and the outcome of the
progress callback after each stage. -/
structure Env where
  abortF : Nat → Bool
  pauseF : Nat → Bool
  stepRes : Nat → Except String Bool
  cbRes : Nat → Except String Unit

/-- The pause wait loop `while self.pause_flag.is_set(): time.sleep(0.1)`:
poll the flag at successive ticks starting at `t`; return the tick at
which it reads clear, or `none` if still set after `fuel` polls. -/
def pauseWait (pauseF : Nat → Bool) (t : Nat) : Nat → Option Nat
  | 0 => none
  | fuel + 1 => if pauseF t then pauseWait pauseF (t + 1) fuel else some t

/-- The ordered stage list of `install` (lines 973-981), with indices. -/
def stepsList : List (Nat × String) :=
  [(0, "prepare"), (1, "download"), (2, "extract"), (3, "install"),
   (4, "configure"), (5, "shortcuts"), (6, "finalize")]

/-- Embedding of the body of the `for` loop of `InstallationEngine.install`
(lines 986-1021) with the trailing `status = "completed"` epilogue.  Per
iteration, in source order: read the abort flag (one tick), spin on the
pause flag, set `current_step`, run the stage function inside `try`;
a `False` return or an exception sets status `failed`, appends an error
and returns; on success append to `steps_completed`, recompute progress,
invoke the progress callback — whose exception is caught by the same
`except` clause, after the completion bookkeeping has already happened. -/
def installLoop (env : Env) (fuel : Nat) :
    List (Nat × String) → Nat → EngState → List Ev →
    Option (Bool × EngState) × List Ev
  | [], _, st, tr => (some (true, { st with status := .completed }), tr)
  | (i, name) :: rest, t, st, tr =>
    if env.abortF t then
      (some (false, { st with status := .aborted }), tr)
    else
      match pauseWait env.pauseF (t + 1) fuel with
      | none => (none, tr)
      | some t1 =>
        let st1 := { st with current_step := some name }
        let tr1 := tr ++ [Ev.stageStarted name]
        match env.stepRes i with
        | .error e =>
          (some (false, { st1 with
                          status := .failed,
                          errors := st1.errors ++ [.stepError name e] }), tr1)
        | .ok false =>
          (some (false, { st1 with
                          status := .failed,
                          errors := st1.errors ++ [.stepFailed name] }), tr1)
        | .ok true =>
          let st2 := { st1 with
                       steps_completed := st1.steps_completed ++ [name],
                       progress := ((i : ℚ) + 1) / 7 * 100 }
          let tr2 := tr1 ++ [Ev.stageCompleted name, Ev.callback st2]
          match env.cbRes i with
          | .error e =>
            (some (false, { st2 with
                            status := .failed,
                            errors := st2.errors ++ [.stepError name e] }), tr2)
          | .ok _ => installLoop env fuel rest (t1 + 1) st2 tr2

/-- The state at entry of `install`: the engine starts from a fresh
`InstallationState()` and line 969 sets `status = "installing"`. -/
def initState : EngState :=
  { status := .installing, progress := 0, current_step := none,
    steps_completed := [], errors := [] }

/-- Embedding of `InstallationEngine.install`: run the stage loop from the
initial state at tick 0.  The result is `some (returnValue, finalState)`
together with the event trace, or `none` when the run is still blocked in
the pause wait after `fuel` polls. -/
def install (env : Env) (fuel : Nat) : Option (Bool × EngState) × List Ev :=
  installLoop env fuel stepsList 0 initState []

/-! ### Download manager (`DownloadManager`, 07-tkinter-improved.py)

Only two on-disk paths matter to `download_file`: the destination
`dest_path` and the partial file `dest_path.with_suffix(".download")`, so
the file system is modelled by those two optional byte lists.  The HTTP
response is modelled by its status code, its `Content-Length` header and
the chunk sequence delivered by `response.read`; `interrupted = true`
means the stream raised after those chunks (network error mid-transfer).
`connError` models `urlopen` itself raising (connection refused, timeout,
non-2xx `HTTPError`).  Note that the source never inspects
`response.status`: the `status` field below is deliberately unused, which
is exactly the behaviour under scrutiny in the range-request claims. -/

/-- The two paths `download_file` touches. -/
structure FS where
  dest : Option (List Nat)
  temp : Option (List Nat)
deriving DecidableEq, Repr

/-- One HTTP exchange as seen by `download_file`. -/
inductive NetResult
  | connError
  | resp (status : Nat) (contentLength : Nat) (chunks : List (List Nat))
      (interrupted : Bool)
deriving DecidableEq, Repr

/-- `resume_pos`: the size of the existing partial file, 0 if absent
(lines 889-894). -/
def resumeOffset (fs : FS) : Nat :=
  match fs.temp with
  | some b => b.length
  | none => 0

/-- The outcome of one `download_file` call: its return value, the file
system afterwards, the offset of the `Range: bytes=<offset>-` header if
one was added, and the final values of the `downloaded` counter and
computed `total_size` (as reported to the progress callback). -/
structure DLResult where
  success : Bool
  fs : FS
  rangeHeader : Option Nat
  downloaded : Nat
  totalSize : Nat
deriving DecidableEq, Repr

/-- Embedding of `DownloadManager.download_file` (lines 881-936).
In source order: take `resume_pos` from the partial file; add
`Range: bytes=<resume_pos>-` iff `resume_pos > 0`; open the connection
(`connError` here leaves both files untouched and returns `False` via the
outer `except`); compute `total_size` from `Content-Length`, adding
`resume_pos` when resuming; open the partial file in append mode when
resuming and write mode otherwise (write mode truncates, which only
happens when the partial file is absent or empty); append every chunk; a
mid-stream exception returns `False` keeping the bytes written so far; on
a clean end of stream rename the partial file onto `dest` and return
`True`.  The response status code is never consulted. -/
def download_file (fs : FS) (net : NetResult) : DLResult :=
  let resume_pos := resumeOffset fs
  let range : Option Nat := if resume_pos > 0 then some resume_pos else none
  match net with
  | .connError =>
    { success := false, fs := fs, rangeHeader := range,
      downloaded := resume_pos, totalSize := 0 }
  | .resp _ contentLength chunks interrupted =>
    let total := if resume_pos > 0 then contentLength + resume_pos
                 else contentLength
    let base := if resume_pos > 0 then fs.temp.getD [] else []
    let newTemp := base ++ chunks.flatten
    let downloaded := resume_pos + chunks.flatten.length
    if interrupted then
      { success := false, fs := { fs with temp := some newTemp },
        rangeHeader := range, downloaded := downloaded, totalSize := total }
    else
      { success := true, fs := { dest := some newTemp, temp := none },
        rangeHeader := range, downloaded := downloaded, totalSize := total }

/-- Embedding of `DownloadManager.verify_checksum` (lines 938-952),
with the hash function abstract (`hash bytes` is the hex digest of
`bytes`).  A missing file makes `open` raise, caught by the `except`
clause which returns `False`; otherwise the digest of the file content is
compared case-insensitively with the expected digest.  The function only
returns a boolean: it deletes nothing. -/
def verify_checksum (hash : List Nat → List Char) (file : Option (List Nat))
    (expected : List Char) : Bool :=
  match file with
  | none => false
  | some bytes => pyLower (hash bytes) == pyLower expected

/-! ## Theorems -/

/-- C2: every command whose normalised text does not start with an
allow-listed name is rejected; every command whose original text contains
a dangerous substring is rejected even when the prefix check passes; and
concretely `"status"` is accepted while `"rm -rf /"` and
`"status; rm -rf /"` are rejected. -/
theorem validate_command_allowlist_and_dangerous :
    (∀ command : List Char,
      (ALLOWED_COMMANDS.any fun cmd => listStartsWith cmd (pyNormalize command)) = false →
      (validate_command command).accepted = false) ∧
    (∀ command : List Char,
      (DANGEROUS_PATTERNS.any fun pat => containsSub pat command) = true →
      (validate_command command).accepted = false) ∧
    (validate_command "status".toList).accepted = true ∧
    (validate_command "rm -rf /".toList).accepted = false ∧
    (validate_command "status; rm -rf /".toList).accepted = false := by
  refine ⟨?_, ?_, by decide, by decide, by decide⟩
  · intro command h
    unfold validate_command
    repeat' split
    all_goals simp_all
  · intro command h
    unfold validate_command
    repeat' split
    all_goals simp_all

/-- Witness for `validate_command_allowlist_and_dangerous`: `"deploy now"`
does not start with any allow-listed name and is rejected. -/
theorem validate_command_allowlist_witness :
    (validate_command "deploy now".toList).accepted = false :=
  validate_command_allowlist_and_dangerous.1 "deploy now".toList (by decide)

/-- C1 counterexample: the claim "exactly one audit event per call" is
false.  On the accepted command `"status"` whose handler raises,
`execute_safe_command` emits *two* audit events: `command_executed`
(logged before the handler is invoked) followed by `command_error` (logged
in the `except` clause). -/
theorem execute_safe_command_two_events :
    (execute_safe_command (fun _ => .error "boom".toList) "status".toList).2
      = [.command_executed, .command_error] ∧
    ¬ ((execute_safe_command (fun _ => .error "boom".toList)
          "status".toList).2.length = 1) := by
  decide

/-- C1 amended: every call emits at least one and at most two audit
events: exactly `[command_rejected]` when validation rejects, exactly
`[command_executed]` when the command is accepted and handled without an
exception, and `[command_executed, command_error]` when the handler
raises. -/
theorem execute_safe_command_audit_events :
    ∀ (hres : List Char → Except (List Char) (List Char)) (command : List Char),
      ((validate_command command).accepted = false →
        (execute_safe_command hres command).2 = [.command_rejected]) ∧
      ((validate_command command).accepted = true →
        (execute_safe_command hres command).2 = [.command_executed] ∨
        (execute_safe_command hres command).2
          = [.command_executed, .command_error]) ∧
      1 ≤ (execute_safe_command hres command).2.length ∧
      (execute_safe_command hres command).2.length ≤ 2 := by
  intro hres command
  unfold execute_safe_command
  by_cases hv : (validate_command command).accepted
  · by_cases hc : pyNormalize command ∈ handlerNames
    · cases hh : hres (pyNormalize command) <;> simp [hv, hc, hh]
    · simp [hv, hc]
  · simp [hv]

/-- Witness for `execute_safe_command_audit_events` at the rejected
command `"rm -rf /"` and the accepted command `"status"` with a
well-behaved handler. -/
theorem execute_safe_command_audit_events_witness :
    (execute_safe_command (fun _ => .ok []) "rm -rf /".toList).2
      = [.command_rejected] ∧
    ((execute_safe_command (fun _ => .ok []) "status".toList).2
        = [.command_executed] ∨
      (execute_safe_command (fun _ => .ok []) "status".toList).2
        = [.command_executed, .command_error]) :=
  ⟨(execute_safe_command_audit_events (fun _ => .ok []) "rm -rf /".toList).1
      (by decide),
   (execute_safe_command_audit_events (fun _ => .ok []) "status".toList).2.1
      (by decide)⟩

/-! ### Concrete environments used by counterexamples and witnesses -/

/-- A maximally benign run: no abort, no pause, every stage succeeds,
every callback returns normally. -/
def envAllOk : Env :=
  { abortF := fun _ => false, pauseF := fun _ => false,
    stepRes := fun _ => .ok true, cbRes := fun _ => .ok () }

/-- A run where `abort()` happens only from poll tick 13 on.  With no
pauses the boundary abort checks fall on ticks 0, 2, ..., 12, so tick 13
is after the final boundary check: the flag is set while the `finalize`
stage is executing, before the run completes. -/
def envAbortLate : Env :=
  { envAllOk with abortF := fun t => decide (13 ≤ t) }

/-- A run where `pause()` happens at tick 1 and is never cleared, and
`abort()` happens at tick 2: the worker enters the pause wait loop and
the abort request arrives while it is spinning there. -/
def envPauseStuck : Env :=
  { envAllOk with abortF := fun t => decide (2 ≤ t),
                  pauseF := fun t => decide (1 ≤ t) }

/-- A run whose first stage's progress callback raises. -/
def envCbBoom : Env :=
  { envAllOk with cbRes := fun i => if i = 0 then .error "boom" else .ok () }

/-- A run whose second stage function returns `False`. -/
def envStepFalse : Env :=
  { envAllOk with stepRes := fun i => .ok (decide (i ≠ 1)) }

/-! ### Stage pipeline theorems -/

/-- Helper: when the abort flag never reads true, a run that returns never
ends in status `aborted` (the only assignment of `aborted` is guarded by
the abort check). -/
theorem installLoop_no_abort_flag (env : Env) (fuel : Nat)
    (h : ∀ t, env.abortF t = false) :
    ∀ (steps : List (Nat × String)) (t : Nat) (st : EngState) (tr : List Ev)
      (b : Bool) (st2 : EngState) (tr2 : List Ev),
      installLoop env fuel steps t st tr = (some (b, st2), tr2) →
      st2.status = .completed ∨ st2.status = .failed := by
  intro steps
  induction steps with
  | nil =>
    intro t st tr b st2 tr2 hrun
    simp only [installLoop, Prod.mk.injEq, Option.some.injEq] at hrun
    obtain ⟨⟨-, hst⟩, -⟩ := hrun
    subst hst
    left
    rfl
  | cons hd rest ih =>
    obtain ⟨i, name⟩ := hd
    intro t st tr b st2 tr2 hrun
    simp only [installLoop, h t, Bool.false_eq_true, if_false] at hrun
    split at hrun
    · exact absurd hrun (by simp)
    · split at hrun
      · simp only [Prod.mk.injEq, Option.some.injEq] at hrun
        obtain ⟨⟨-, hst⟩, -⟩ := hrun
        subst hst
        right
        rfl
      · simp only [Prod.mk.injEq, Option.some.injEq] at hrun
        obtain ⟨⟨-, hst⟩, -⟩ := hrun
        subst hst
        right
        rfl
      · split at hrun
        · simp only [Prod.mk.injEq, Option.some.injEq] at hrun
          obtain ⟨⟨-, hst⟩, -⟩ := hrun
          subst hst
          right
          rfl
        · exact ih _ _ _ _ _ _ hrun

/-- C3 counterexample: abort requested while the final stage is executing
does **not** end the run in `Aborted`.  In `envAbortLate` the abort flag
becomes set at tick 13, after the last boundary abort check (tick 12) but
before the run completes; `install` finishes with status `completed` and
return value `True`, because the abort flag is only consulted at the
boundary *before* each stage and never again after the last stage starts. -/
theorem install_abort_during_final_stage_completes :
    ((install envAbortLate 100).1.map fun p => p.2.status) = some .completed ∧
    envAbortLate.abortF 13 = true ∧
    ¬ (((install envAbortLate 100).1.map fun p => p.2.status)
        = some .aborted) := by
  decide

/-- C3 amended: `abort()` yields terminal status `Aborted` (with no
exception: the run returns a value) when the abort flag is set by the time
of the boundary check before a not-yet-started stage; conversely, a run in
which the flag never reads true at a boundary check never ends `Aborted`.
Abort requested after the final boundary check (while the final stage
executes) leaves the run to finish `Completed`
(`install_abort_during_final_stage_completes`). -/
theorem install_abort_boundary_semantics :
    (∀ (env : Env) (fuel : Nat) (i : Nat) (name : String)
       (rest : List (Nat × String)) (t : Nat) (st : EngState) (tr : List Ev),
      env.abortF t = true →
      installLoop env fuel ((i, name) :: rest) t st tr
        = (some (false, { st with status := .aborted }), tr)) ∧
    (∀ (env : Env) (fuel : Nat),
      (∀ t, env.abortF t = false) →
      ((install env fuel).1.map fun p => p.2.status) ≠ some .aborted) := by
  constructor
  · intro env fuel i name rest t st tr habort
    simp [installLoop, habort]
  · intro env fuel h
    rcases hrun : (install env fuel).1 with - | p
    · simp
    · obtain ⟨b, st2⟩ := p
      rcases installLoop_no_abort_flag env fuel h stepsList 0 initState [] b st2
          (install env fuel).2 (by rw [← hrun]; rfl) with hc | hf
      · simp [hc]
      · simp [hf]

/-- Witness for `install_abort_boundary_semantics`: in a run whose abort
flag is already set at tick 0, the pipeline immediately ends `Aborted`;
and the benign run `envAllOk` (abort flag never set) does not end
`Aborted`. -/
theorem install_abort_boundary_semantics_witness :
    installLoop { envAllOk with abortF := fun _ => true } 5 stepsList 0
        initState [] = (some (false, { initState with status := .aborted }), []) ∧
    ((install envAllOk 5).1.map fun p => p.2.status) ≠ some .aborted :=
  ⟨install_abort_boundary_semantics.1 { envAllOk with abortF := fun _ => true }
      5 0 "prepare" (stepsList.drop 1) 0 initState [] rfl,
   install_abort_boundary_semantics.2 envAllOk 5 (fun _ => rfl)⟩

set_option maxRecDepth 8000 in
/-- C4 counterexample: the pause wait does **not** end when abort is
requested.  In `envPauseStuck` the pause flag is set from tick 1 and never
cleared, and the abort flag is set from tick 2; the worker enters the
pause loop at the first stage boundary and is still spinning there after
1000 polls (result `none`), with no stage started and no progress event,
even though abort was requested almost immediately. -/
theorem install_pause_wait_ignores_abort :
    install envPauseStuck 1000 = (none, []) ∧
    envPauseStuck.abortF 2 = true := by
  constructor
  · decide
  · rfl

/-- C4 amended: when the pause flag is set at a stage boundary the runner
blocks there, polling, until the flag is *cleared* — and only until it is
cleared: a pause held forever blocks the runner forever regardless of the
abort flag, which the wait loop never consults.  While blocked, no stage
starts, the state is untouched and no progress callback fires (the trace
does not grow). -/
theorem install_pause_boundary_semantics :
    (∀ (pF : Nat → Bool) (t fuel : Nat),
      (∀ s, pF s = true) → pauseWait pF t fuel = none) ∧
    (∀ (pF : Nat → Bool) (t k fuel : Nat),
      (∀ s, s < k → pF (t + s) = true) → pF (t + k) = false → k < fuel →
      pauseWait pF t fuel = some (t + k)) ∧
    (∀ (env : Env) (fuel : Nat) (i : Nat) (name : String)
       (rest : List (Nat × String)) (t : Nat) (st : EngState) (tr : List Ev),
      env.abortF t = false →
      pauseWait env.pauseF (t + 1) fuel = none →
      installLoop env fuel ((i, name) :: rest) t st tr = (none, tr)) := by
  refine ⟨?_, ?_, ?_⟩
  · intro pF t fuel h
    induction fuel generalizing t with
    | zero => rfl
    | succ n ih => simp [pauseWait, h t, ih]
  · intro pF t k
    induction k generalizing t with
    | zero =>
      intro fuel h1 h2 h3
      have h2x : pF t = false := by simpa using h2
      obtain ⟨n, rfl⟩ := Nat.exists_eq_succ_of_ne_zero (Nat.pos_iff_ne_zero.mp h3)
      simp [pauseWait, h2x]
    | succ m ih =>
      intro fuel h1 h2 h3
      obtain ⟨n, rfl⟩ := Nat.exists_eq_succ_of_ne_zero
        (Nat.pos_iff_ne_zero.mp (Nat.lt_of_le_of_lt (Nat.zero_le _) h3))
      have hp0 : pF t = true := by simpa using h1 0 (Nat.succ_pos m)
      have h1x : ∀ s, s < m → pF (t + 1 + s) = true := by
        intro s hs
        have he : t + 1 + s = t + (s + 1) := by omega
        rw [he]
        exact h1 (s + 1) (Nat.succ_lt_succ hs)
      have h2x : pF (t + 1 + m) = false := by
        have he : t + 1 + m = t + (m + 1) := by omega
        rw [he]
        exact h2
      have hrec := ih (t + 1) n h1x h2x (Nat.lt_of_succ_lt_succ h3)
      simp only [pauseWait, hp0, if_true]
      rw [hrec]
      congr 1
      omega
  · intro env fuel i name rest t st tr habort hpause
    simp [installLoop, habort, hpause]

/-- Witness for `install_pause_boundary_semantics`: a pause held forever
blocks the wait; a pause cleared at tick 3 unblocks exactly there; and at
a boundary with pause stuck the loop returns `none` with an unchanged
trace. -/
theorem install_pause_boundary_semantics_witness :
    pauseWait (fun _ => true) 0 5 = none ∧
    pauseWait (fun s => decide (s < 3)) 0 10 = some 3 ∧
    installLoop envPauseStuck 7 stepsList 0 initState [] = (none, []) :=
  ⟨install_pause_boundary_semantics.1 (fun _ => true) 0 5 (fun _ => rfl),
   install_pause_boundary_semantics.2.1 (fun s => decide (s < 3)) 0 3 10
      (fun s hs => decide_eq_true (by omega)) (by decide) (by decide),
   install_pause_boundary_semantics.2.2 envPauseStuck 7 0 "prepare"
      (stepsList.drop 1) 0 initState [] rfl (by decide)⟩

/-- C7 counterexample: a progress-callback exception is **not** state
neutral.  In `envCbBoom` every stage succeeds but the first callback
raises; the `except` clause of the stage loop catches it and marks the
whole run `failed`, appending a step error, so the run's state *is*
changed by the callback exception (the claim said the state is not
changed and the callback merely observes a snapshot). -/
theorem install_callback_exception_changes_state :
    ((install envCbBoom 10).1.map fun p => p.2.status) = some .failed ∧
    ((install envCbBoom 10).1.map fun p => p.2.errors)
      = some [.stepError "prepare" "boom"] ∧
    ((install envCbBoom 10).1.map fun p => p.1) = some false := by
  refine ⟨by decide, by decide, by decide⟩

/-- C7 amended: an exception raised by the caller-supplied progress
callback is caught by the runner and never propagated to the caller (the
run returns a value), but it is treated like a stage failure: the status
becomes `failed`, a step error is appended, and the pipeline stops — while
the completed stage remains recorded in `steps_completed` (and progress
was already advanced) because the callback runs after that bookkeeping. -/
theorem install_callback_exception_semantics :
    ∀ (env : Env) (fuel : Nat) (i : Nat) (name : String)
      (rest : List (Nat × String)) (t : Nat) (st : EngState) (tr : List Ev)
      (t1 : Nat) (e : String),
      env.abortF t = false →
      pauseWait env.pauseF (t + 1) fuel = some t1 →
      env.stepRes i = .ok true →
      env.cbRes i = .error e →
      installLoop env fuel ((i, name) :: rest) t st tr =
        (some (false,
          { st with
            current_step := some name,
            steps_completed := st.steps_completed ++ [name],
            progress := ((i : ℚ) + 1) / 7 * 100,
            status := .failed,
            errors := st.errors ++ [.stepError name e] }),
         tr ++ [Ev.stageStarted name, Ev.stageCompleted name,
                Ev.callback
                  { st with
                    current_step := some name,
                    steps_completed := st.steps_completed ++ [name],
                    progress := ((i : ℚ) + 1) / 7 * 100 }]) := by
  intro env fuel i name rest t st tr t1 e habort hpause hstep hcb
  simp [installLoop, habort, hpause, hstep, hcb]

/-- Witness for `install_callback_exception_semantics` at the first stage
of `envCbBoom` starting from the initial state. -/
theorem install_callback_exception_semantics_witness :
    installLoop envCbBoom 10 ((0, "prepare") :: stepsList.drop 1) 0
        initState [] =
      (some (false,
        { initState with
          current_step := some "prepare",
          steps_completed := ["prepare"],
          progress := ((0 : ℚ) + 1) / 7 * 100,
          status := .failed,
          errors := [.stepError "prepare" "boom"] }),
       [Ev.stageStarted "prepare", Ev.stageCompleted "prepare",
        Ev.callback
          { initState with
            current_step := some "prepare",
            steps_completed := ["prepare"],
            progress := ((0 : ℚ) + 1) / 7 * 100 }]) := by
  have h := install_callback_exception_semantics envCbBoom 10 0 "prepare"
    (stepsList.drop 1) 0 initState [] 1 "boom" rfl (by decide) rfl rfl
  simpa [initState] using h

/-- C8: if a stage function fails — returns `False` or raises — the runner
appends a message to `errors`, sets status `failed` and stops: the
returned trace shows no later stage ever starts, no rollback of earlier
stages is attempted (the state is only extended), and the run ends in a
terminal status with a non-empty `errors` list. -/
theorem install_stage_failure_stops_pipeline :
    ∀ (env : Env) (fuel : Nat) (i : Nat) (name : String)
      (rest : List (Nat × String)) (t : Nat) (st : EngState) (tr : List Ev)
      (t1 : Nat),
      env.abortF t = false →
      pauseWait env.pauseF (t + 1) fuel = some t1 →
      ((env.stepRes i = .ok false →
        installLoop env fuel ((i, name) :: rest) t st tr =
          (some (false,
            { st with
              current_step := some name,
              status := .failed,
              errors := st.errors ++ [.stepFailed name] }),
           tr ++ [Ev.stageStarted name]) ∧
        st.errors ++ [.stepFailed name] ≠ []) ∧
       (∀ e, env.stepRes i = .error e →
        installLoop env fuel ((i, name) :: rest) t st tr =
          (some (false,
            { st with
              current_step := some name,
              status := .failed,
              errors := st.errors ++ [.stepError name e] }),
           tr ++ [Ev.stageStarted name]) ∧
        st.errors ++ [.stepError name e] ≠ [])) := by
  intro env fuel i name rest t st tr t1 habort hpause
  constructor
  · intro hstep
    constructor
    · simp [installLoop, habort, hpause, hstep]
    · simp
  · intro e hstep
    constructor
    · simp [installLoop, habort, hpause, hstep]
    · simp

/-- Witness for `install_stage_failure_stops_pipeline`: in `envStepFalse`
the second stage (`download`, index 1) returns `False` at the boundary
reached after the first stage; the pipeline ends `failed` with the error
recorded and no later stage in the trace. -/
theorem install_stage_failure_stops_pipeline_witness :
    installLoop envStepFalse 10 ((1, "download") :: stepsList.drop 2) 2
        { initState with
          current_step := some "prepare",
          steps_completed := ["prepare"],
          progress := ((0 : ℚ) + 1) / 7 * 100 }
        [Ev.stageStarted "prepare"] =
      (some (false,
        { initState with
          current_step := some "download",
          steps_completed := ["prepare"],
          progress := ((0 : ℚ) + 1) / 7 * 100,
          status := .failed,
          errors := [.stepFailed "download"] }),
       [Ev.stageStarted "prepare", Ev.stageStarted "download"]) := by
  have h := (install_stage_failure_stops_pipeline envStepFalse 10 1 "download"
    (stepsList.drop 2) 2
    { initState with
      current_step := some "prepare",
      steps_completed := ["prepare"],
      progress := ((0 : ℚ) + 1) / 7 * 100 }
    [Ev.stageStarted "prepare"] 3 rfl (by decide)).1 rfl
  simpa [initState] using h.1

/-! ### Download manager theorems -/

/-- C9: a transfer whose partial file already holds `n > 0` bytes sets the
resume offset to `n`, sends `Range: bytes=n-`, and appends the fetched
bytes to the partial file; when the pre-existing bytes are the first `n`
bytes of the artifact and the response body is exactly the remaining
bytes, the completed file at the destination equals the artifact
byte-for-byte (and the partial file is gone after the rename). -/
theorem download_file_resume_range_and_content :
    ∀ (destBefore : Option (List Nat)) (art p : List Nat) (n status cl : Nat)
      (chunks : List (List Nat)),
      p.length = n → 0 < n → p = art.take n → chunks.flatten = art.drop n →
      (download_file ⟨destBefore, some p⟩
          (.resp status cl chunks false)).rangeHeader = some n ∧
      (download_file ⟨destBefore, some p⟩
          (.resp status cl chunks false)).success = true ∧
      (download_file ⟨destBefore, some p⟩
          (.resp status cl chunks false)).fs.dest = some art ∧
      (download_file ⟨destBefore, some p⟩
          (.resp status cl chunks false)).fs.temp = none := by
  intro destBefore art p n status cl chunks hlen hpos hpre hbody
  have hres : resumeOffset ⟨destBefore, some p⟩ = n := hlen
  refine ⟨?_, ?_, ?_, ?_⟩
  · simp [download_file, hres, hpos, Nat.pos_iff_ne_zero.mp hpos]
  · simp [download_file]
  · simp only [download_file, hres, hpos, if_pos hpos]
    simp [hpre, hbody, List.take_append_drop]
  · simp [download_file]

/-- Witness for `download_file_resume_range_and_content`: resuming a
4-byte artifact from a 2-byte prefix with the remaining bytes delivered
in two chunks yields the artifact at the destination. -/
theorem download_file_resume_range_and_content_witness :
    (download_file ⟨none, some [7, 8]⟩
        (.resp 206 2 [[9], [10]] false)).rangeHeader = some 2 ∧
    (download_file ⟨none, some [7, 8]⟩
        (.resp 206 2 [[9], [10]] false)).success = true ∧
    (download_file ⟨none, some [7, 8]⟩
        (.resp 206 2 [[9], [10]] false)).fs.dest = some [7, 8, 9, 10] ∧
    (download_file ⟨none, some [7, 8]⟩
        (.resp 206 2 [[9], [10]] false)).fs.temp = none :=
  download_file_resume_range_and_content none [7, 8, 9, 10] [7, 8] 2 206 2
    [[9], [10]] (by decide) (by decide) (by decide) (by decide)

/-- C10: whenever `download_file` fails (returns `False`), nothing was
created or modified at the destination path (the rename happens only on
the all-success path); a connection-level failure leaves the file system
untouched; a mid-stream interruption retains on disk every byte appended
so far (the previous partial content, when resuming, followed by the
chunks received); and any call that finds a non-empty partial file resumes
from it by sending `Range: bytes=<length>-`.  The call itself never
raises: the whole body sits in a `try`/`except` returning `False`, which
is why the embedding is a total function into `DLResult`. -/
theorem download_file_failure_keeps_dest_and_temp :
    ∀ (fs : FS) (net : NetResult),
      ((download_file fs net).success = false →
        (download_file fs net).fs.dest = fs.dest) ∧
      (net = .connError → (download_file fs net).fs = fs) ∧
      (∀ status cl chunks, net = .resp status cl chunks true →
        (download_file fs net).success = false ∧
        (download_file fs net).fs.temp =
          some ((if 0 < resumeOffset fs then fs.temp.getD [] else [])
            ++ chunks.flatten)) ∧
      (∀ b, fs.temp = some b → 0 < b.length →
        (download_file fs net).rangeHeader = some b.length) := by
  intro fs net
  refine ⟨?_, ?_, ?_, ?_⟩
  · intro hfail
    cases net with
    | connError => rfl
    | resp status cl chunks interrupted =>
      cases interrupted with
      | true => rfl
      | false => simp [download_file] at hfail
  · intro hnet
    subst hnet
    rfl
  · intro status cl chunks hnet
    subst hnet
    constructor
    · rfl
    · simp [download_file]
  · intro b hb hpos
    have hres : resumeOffset fs = b.length := by simp [resumeOffset, hb]
    cases net with
    | connError => simp [download_file, hres, hpos]
    | resp status cl chunks interrupted =>
      cases interrupted <;> simp [download_file, hres, hpos]

/-- Witness for `download_file_failure_keeps_dest_and_temp`: a transfer
resuming from a 2-byte partial file that is interrupted after one more
chunk returns `False`, leaves the destination untouched and keeps the 3
bytes in the partial file; the call had requested `Range: bytes=2-`. -/
theorem download_file_failure_keeps_dest_and_temp_witness :
    (download_file ⟨some [5], some [1, 2]⟩
        (.resp 206 9 [[3]] true)).fs.dest = some [5] ∧
    ((download_file ⟨some [5], some [1, 2]⟩
        (.resp 206 9 [[3]] true)).success = false ∧
      (download_file ⟨some [5], some [1, 2]⟩
        (.resp 206 9 [[3]] true)).fs.temp =
        some ((if 0 < resumeOffset ⟨some [5], some [1, 2]⟩
            then (⟨some [5], some [1, 2]⟩ : FS).temp.getD [] else [])
          ++ [[3]].flatten)) ∧
    (download_file ⟨some [5], some [1, 2]⟩
        (.resp 206 9 [[3]] true)).rangeHeader = some 2 :=
  ⟨(download_file_failure_keeps_dest_and_temp ⟨some [5], some [1, 2]⟩
      (.resp 206 9 [[3]] true)).1 (by decide),
   (download_file_failure_keeps_dest_and_temp ⟨some [5], some [1, 2]⟩
      (.resp 206 9 [[3]] true)).2.2.1 206 9 [[3]] rfl,
   (download_file_failure_keeps_dest_and_temp ⟨some [5], some [1, 2]⟩
      (.resp 206 9 [[3]] true)).2.2.2 [1, 2] rfl (by decide)⟩

/-- A concrete stand-in for the SHA-256 hex digest used only to exhibit a
checksum mismatch on a small input (the digest function is abstract in
`verify_checksum`; any function of the file bytes will do). -/
def hashDemo : List Nat → List Char :=
  fun bytes => if bytes = [9, 9, 9] then "good".toList else "bad".toList

/-- C5 counterexample: a completed download whose content mismatches the
expected checksum does **not** end with the file discarded.  `download_file`
renames the partial file onto the destination *before* any verification,
and `verify_checksum` (which, besides, has no caller in the source and no
`ChecksumMismatchError` exists there) merely returns `False` and deletes
nothing — so after the mismatch the corrupted file still sits at the
destination path, contradicting "no file exists at destinationPath". -/
theorem download_checksum_mismatch_keeps_file :
    (download_file ⟨none, none⟩ (.resp 200 3 [[1, 2, 3]] false)).success
      = true ∧
    verify_checksum hashDemo
      (download_file ⟨none, none⟩ (.resp 200 3 [[1, 2, 3]] false)).fs.dest
      "good".toList = false ∧
    ¬ ((download_file ⟨none, none⟩
        (.resp 200 3 [[1, 2, 3]] false)).fs.dest = none) := by
  refine ⟨by decide, by decide, by decide⟩

/-- C5 amended: on a checksum mismatch the outcome is merely
`verify_checksum = false` — there is no `ChecksumMismatchError` and no
discarding.  After any successful `download_file` the completed content is
already at the destination (`some bytes`), verification is a separate
read-only boolean check on it, and a mismatch is exactly an (ASCII
case-insensitive) disagreement between the file's digest and the expected
digest; the file remains at the destination regardless of the outcome. -/
theorem download_checksum_mismatch_semantics :
    ∀ (hash : List Nat → List Char) (fs : FS) (net : NetResult)
      (expected : List Char),
      (download_file fs net).success = true →
      ∃ bytes, (download_file fs net).fs.dest = some bytes ∧
        (verify_checksum hash (download_file fs net).fs.dest expected = false
          ↔ ¬ pyLower (hash bytes) = pyLower expected) := by
  intro hash fs net expected hsucc
  cases net with
  | connError => simp [download_file] at hsucc
  | resp status cl chunks interrupted =>
    cases interrupted with
    | true => simp [download_file] at hsucc
    | false =>
      refine ⟨(if 0 < resumeOffset fs then fs.temp.getD [] else [])
        ++ chunks.flatten, ?_, ?_⟩
      · simp [download_file]
      · simp [download_file, verify_checksum]

/-- Witness for `download_checksum_mismatch_semantics` at the concrete
mismatching download of `download_checksum_mismatch_keeps_file`'s shape,
but with a distinct input: content `[4]`, expected digest `"good"`. -/
theorem download_checksum_mismatch_semantics_witness :
    ∃ bytes,
      (download_file ⟨none, none⟩ (.resp 200 1 [[4]] false)).fs.dest
        = some bytes ∧
      (verify_checksum hashDemo
          (download_file ⟨none, none⟩ (.resp 200 1 [[4]] false)).fs.dest
          "good".toList = false
        ↔ ¬ pyLower (hashDemo bytes) = pyLower "good".toList) :=
  download_checksum_mismatch_semantics hashDemo ⟨none, none⟩
    (.resp 200 1 [[4]] false) "good".toList (by decide)

/-- C6 (recording the divergence): the source never inspects the HTTP
status code, so a server that answers a `Range: bytes=5-` request with a
`200` full-body restart is **not** detected: `resumeOffset` stays 5, the
full body is appended after the stale partial bytes, and the "completed"
file is the 5 partial bytes followed by the whole 10-byte artifact — 15
bytes that differ from the artifact — with `downloaded`/`total_size`
reported as 15 instead of 10.  The claim (and the spec's "Runner must
detect and reset `resumeOffset` to 0") describes behaviour the code lacks. -/
theorem download_file_ignores_http_200_restart :
    (download_file ⟨none, some [0, 1, 2, 3, 4]⟩
        (.resp 200 10 [[0, 1, 2, 3, 4, 5, 6, 7, 8, 9]] false)).rangeHeader
      = some 5 ∧
    (download_file ⟨none, some [0, 1, 2, 3, 4]⟩
        (.resp 200 10 [[0, 1, 2, 3, 4, 5, 6, 7, 8, 9]] false)).success
      = true ∧
    (download_file ⟨none, some [0, 1, 2, 3, 4]⟩
        (.resp 200 10 [[0, 1, 2, 3, 4, 5, 6, 7, 8, 9]] false)).fs.dest
      = some [0, 1, 2, 3, 4, 0, 1, 2, 3, 4, 5, 6, 7, 8, 9] ∧
    ¬ ((download_file ⟨none, some [0, 1, 2, 3, 4]⟩
        (.resp 200 10 [[0, 1, 2, 3, 4, 5, 6, 7, 8, 9]] false)).fs.dest
      = some [0, 1, 2, 3, 4, 5, 6, 7, 8, 9]) ∧
    (download_file ⟨none, some [0, 1, 2, 3, 4]⟩
        (.resp 200 10 [[0, 1, 2, 3, 4, 5, 6, 7, 8, 9]] false)).downloaded
      = 15 ∧
    (download_file ⟨none, some [0, 1, 2, 3, 4]⟩
        (.resp 200 10 [[0, 1, 2, 3, 4, 5, 6, 7, 8, 9]] false)).totalSize
      = 15 := by
  refine ⟨by decide, by decide, by decide, by decide, by decide, by decide⟩
